import Mathlib

/-!
Verification development for the `Lab_Sklearn_Magic` notebook
(`src/ipython/Labs_Student/.ipynb_checkpoints/Lab_Sklearn_Magic-checkpoint.ipynb`).

The notebook is a linear batch computation: load a shuffled churn dataset,
drop five redundant columns, split into features `X` and target `Y`,
build `kfolds = KFold(n, n_folds = 4)`, and run three `GridSearchCV`
searches (plain logistic regression, scaler + LR, polynomial + scaler + LR)
with `scoring = 'roc_auc'`, reporting `best_1`, `best_2`, `best_3`.

The embedding below models, faithfully to the library versions the notebook
imports (`sklearn.cross_validation.KFold`, `sklearn.grid_search.GridSearchCV`,
`sklearn.preprocessing.PolynomialFeatures`, `pandas.DataFrame.drop`):

* `kfolds n k` — the contiguous index partition KFold produces: the first
  `n % k` folds have size `n / k + 1`, the rest size `n / k`.
* `gridSearchCV` — exhaustive evaluation of every grid point, selecting the
  first point attaining the maximal cross-validated score; any exception
  raised while scoring a grid point propagates (the search aborts).
* `rocAuc` — the ROC-AUC score as the normalised count of concordant
  positive/negative pairs (ties count one half); raises a `ValueError`
  when the validation target contains a single class only.
* `cvScore` — per-fold scoring combined by the sample-weighted mean
  (old GridSearchCV default `iid=True`).
* `polyTransform` — PolynomialFeatures with the default `include_bias=True`:
  all monomials of total degree `0..degree` (distinct-variable combinations
  only when `interaction_only`).
* `Frame`, `dropCols`, `getCol` — the pandas operations of the data-prep
  cell; `drop` is non-mutating (it returns a new frame) and raises when a
  label is absent from the columns.

Numeric fitting of the logistic regression itself is floating-point
optimisation; it enters the embedding as an abstract prediction function
`P → Frame → List ℕ → List ℕ → List ℚ` (hyper-parameters, feature frame,
train indices, validation indices ↦ predicted scores for the validation
rows), quantified over in the theorems.
-/

namespace SklearnLab

/-! ### K-fold splitting (`sklearn.cross_validation.KFold(n, n_folds = 4)`) -/

/-- Fold sizes of old sklearn `KFold`: each fold has `n / k` samples and the
first `n % k` folds get one extra. -/
def foldSizes (n k : ℕ) : List ℕ :=
  (List.range k).map (fun i => n / k + if i < n % k then 1 else 0)

/-- Cut a list into consecutive chunks of the given sizes. -/
def splitSizes {α : Type} : List α → List ℕ → List (List α)
  | _, [] => []
  | l, s :: rest => l.take s :: splitSizes (l.drop s) rest

/-- The validation groups of `KFold(n, n_folds = k)` without shuffling:
consecutive runs of `0, …, n-1` with the sizes `foldSizes n k`. -/
def kfolds (n k : ℕ) : List (List ℕ) :=
  splitSizes (List.range n) (foldSizes n k)

/-- The training indices paired with a validation group: every row index
below `n` that is not in the validation group. -/
def trainFold (n : ℕ) (val : List ℕ) : List ℕ :=
  (List.range n).filter (fun j => decide (j ∉ val))

/-! ### Hyper-parameter grids

`param_grid_lr = {'C': [10**i for i in range(-3, 3)], 'penalty': ['l1', 'l2']}`,
`parameters_scaler` is the same dictionary under pipeline naming, and
`parameters_poly` adds `polyfeat__degree = [1, 2]` and
`polyfeat__interaction_only = [True, False]`. -/

/-- The `penalty` hyper-parameter values `['l1', 'l2']`. -/
inductive Penalty : Type
  | l1 : Penalty
  | l2 : Penalty
deriving DecidableEq

/-- A grid point for the plain / scaled logistic-regression searches. -/
structure LRParams : Type where
  C : ℚ
  penalty : Penalty
deriving DecidableEq

/-- A grid point for the polynomial pipeline search. -/
structure PolyParams : Type where
  degree : ℕ
  interaction_only : Bool
  C : ℚ
  penalty : Penalty
deriving DecidableEq

/-- The value of `[10**i for i in range(-3, 3)]`: the six powers of ten from
`10^-3` to `10^2`, as exact rationals. -/
def cVals : List ℚ := [mkRat 1 1000, mkRat 1 100, mkRat 1 10, 1, 10, 100]

/-- `['l1', 'l2']`. -/
def penalties : List Penalty := [Penalty.l1, Penalty.l2]

/-- The cartesian product of `param_grid_lr` (baseline search). -/
def paramGridLR : List LRParams :=
  cVals.flatMap (fun c => penalties.map (fun p => ⟨c, p⟩))

/-- The cartesian product of `parameters_scaler` (scaler pipeline search);
textually the same grid as `param_grid_lr`. -/
def parametersScaler : List LRParams :=
  cVals.flatMap (fun c => penalties.map (fun p => ⟨c, p⟩))

/-- `polyfeat__degree = [1, 2]`. -/
def degreeVals : List ℕ := [1, 2]

/-- `polyfeat__interaction_only = [True, False]`. -/
def interactionVals : List Bool := [true, false]

/-- The cartesian product of `parameters_poly` (polynomial pipeline search). -/
def parametersPoly : List PolyParams :=
  degreeVals.flatMap (fun d =>
    interactionVals.flatMap (fun io =>
      cVals.flatMap (fun c =>
        penalties.map (fun p => ⟨d, io, c, p⟩))))

/-! ### GridSearchCV

`sklearn.grid_search.GridSearchCV` evaluates every grid point by
cross-validation and keeps the first one attaining the maximal score;
an exception raised while scoring propagates and aborts the fit. -/

/-- One selection step: keep the incumbent unless the new pair scores
strictly higher (so earlier entries win ties, as the stable sort over mean
validation scores of old `GridSearchCV` does). -/
def pickStep {P : Type} (acc : Option (P × ℚ)) (x : P × ℚ) : Option (P × ℚ) :=
  match acc with
  | none => some x
  | some b => if b.2 < x.2 then some x else some b

/-- Keep the best-scoring pair, earlier entries winning ties. -/
def pickBest {P : Type} (l : List (P × ℚ)) : Option (P × ℚ) :=
  l.foldl pickStep none

/-- Score every grid point in order; the first raised exception aborts. -/
def evalGrid {P : Type} (e : P → Except String ℚ) : List P → Except String (List (P × ℚ))
  | [] => .ok []
  | p :: ps =>
    match e p with
    | .error msg => .error msg
    | .ok s =>
      match evalGrid e ps with
      | .error msg => .error msg
      | .ok rest => .ok ((p, s) :: rest)

/-- The exhaustive grid search: scores all grid points and returns the grid
point with the best cross-validated score together with `best_score_`. -/
def gridSearchCV {P : Type} (grid : List P) (e : P → Except String ℚ) :
    Except String (P × ℚ) :=
  match evalGrid e grid with
  | .error msg => .error msg
  | .ok scored =>
    match pickBest scored with
    | some b => .ok b
    | none => .error "ValueError: empty parameter grid"

/-! ### ROC-AUC scoring and k-fold cross-validation (`scoring = 'roc_auc'`)

Old sklearn raises `ValueError` from `roc_auc_score` when the validation
target contains one class only, and `GridSearchCV` does not catch
exceptions raised while scoring, so the whole `fit` aborts. -/

/-- The message of the `ValueError` raised by `roc_auc_score` on a
single-class target. -/
def rocAucErr : String :=
  "ValueError: Only one class present in y_true. ROC AUC score is not defined in that case."

/-- Contribution of one positive/negative score pair to the AUC statistic:
`1` if the positive is ranked higher, `1/2` on a tie, `0` otherwise. -/
def pairScore (sp sn : ℚ) : ℚ :=
  if sn < sp then 1 else if sp = sn then 1/2 else 0

/-- Predicted scores of the positive rows (`yt` true), in order. -/
def posScores (yt : List Bool) (ys : List ℚ) : List ℚ :=
  ((yt.zip ys).filter (fun p => p.1)).map Prod.snd

/-- Predicted scores of the negative rows (`yt` false), in order. -/
def negScores (yt : List Bool) (ys : List ℚ) : List ℚ :=
  ((yt.zip ys).filter (fun p => !p.1)).map Prod.snd

/-- ROC-AUC of predicted scores `ys` against boolean targets `yt`: the
normalised concordant-pair count, or the `ValueError` when the positives
or the negatives are absent. -/
def rocAuc (yt : List Bool) (ys : List ℚ) : Except String ℚ :=
  if (posScores yt ys).isEmpty || (negScores yt ys).isEmpty then .error rocAucErr
  else
    .ok (((posScores yt ys).map
        (fun sp => ((negScores yt ys).map (fun sn => pairScore sp sn)).sum)).sum
      / (((posScores yt ys).length * (negScores yt ys).length : ℕ) : ℚ))

/-- The target labels of the rows of a validation group. -/
def valLabels (y : List Bool) (idx : List ℕ) : List Bool :=
  idx.map (fun i => y.getD i false)

/-- A single-class (degenerate) validation target. -/
def singleClass (l : List Bool) : Prop :=
  (∀ b ∈ l, b = true) ∨ (∀ b ∈ l, b = false)

/-- Per-fold ROC-AUC scores paired with validation-fold sizes; the first
exception raised by the scorer propagates. -/
def foldScores (n : ℕ) (y : List Bool) (predict : List ℕ → List ℕ → List ℚ) :
    List (List ℕ) → Except String (List (ℚ × ℕ))
  | [] => .ok []
  | f :: fs =>
    match rocAuc (valLabels y f) (predict (trainFold n f) f) with
    | .error msg => .error msg
    | .ok a =>
      match foldScores n y predict fs with
      | .error msg => .error msg
      | .ok rest => .ok ((a, f.length) :: rest)

/-- The cross-validated score of one grid point: the sample-weighted mean
of the per-fold scores (old `GridSearchCV` default `iid=True`). -/
def cvScore (folds : List (List ℕ)) (n : ℕ) (y : List Bool)
    (predict : List ℕ → List ℕ → List ℚ) : Except String ℚ :=
  match foldScores n y predict folds with
  | .error msg => .error msg
  | .ok l =>
    .ok ((l.map (fun x => x.1 * (x.2 : ℚ))).sum / (((l.map Prod.snd).sum : ℕ) : ℚ))

/-- The balanced 10-row scenario target: two alternating classes, so each
of the four validation folds contains both classes. -/
def scenarioY : List Bool :=
  [true, false, true, false, true, false, true, false, true, false]

/-- An 8-row target whose first validation fold under `kfolds 8 4` is
`[true, true]` — a single-class (degenerate) fold. -/
def yDeg : List Bool :=
  [true, true, false, true, false, true, false, true]

/-! ### PolynomialFeatures (`sklearn.preprocessing.PolynomialFeatures`)

The notebook constructs `PolynomialFeatures()` with the default
`include_bias=True`; the grid varies `degree` and `interaction_only`.
The output columns are all monomials of total degree `0` (the bias column
of ones) through `degree`. -/

/-- Combinations with replacement of length `d` (the monomial exponent
multisets of `PolynomialFeatures` with `interaction_only=False`). -/
def cwr {α : Type} : List α → ℕ → List (List α)
  | _, 0 => [[]]
  | [], _ + 1 => []
  | x :: xs, d + 1 => ((cwr (x :: xs) d).map (fun t => x :: t)) ++ cwr xs (d + 1)
termination_by l d => (d, l.length)

/-- Combinations without replacement of length `d` (the distinct-feature
products of `PolynomialFeatures` with `interaction_only=True`). -/
def combs {α : Type} : List α → ℕ → List (List α)
  | _, 0 => [[]]
  | [], _ + 1 => []
  | x :: xs, d + 1 => ((combs xs d).map (fun t => x :: t)) ++ combs xs (d + 1)

/-- All monomial factor lists of a row, degree `0` through `degree`. -/
def monomials (degree : ℕ) (io : Bool) (r : List ℚ) : List (List ℚ) :=
  (List.range (degree + 1)).flatMap (fun d => if io then combs r d else cwr r d)

/-- `PolynomialFeatures(degree, interaction_only).fit_transform(X)` with the
default `include_bias=True`: each row is mapped to the products of its
monomial factor lists. -/
def polyTransform (degree : ℕ) (io : Bool) (X : List (List ℚ)) : List (List ℚ) :=
  X.map (fun r => (monomials degree io r).map (fun m => m.prod))

/-! ### The data-prep cell (pandas operations)

`data_subset = data.drop(dropvar_list, 1)`, `X = data_subset.drop('churndep', 1)`,
`Y = data_subset['churndep']`, `kfolds = KFold(data_subset.shape[0], n_folds = 4)`.
`DataFrame.drop` returns a new frame (no `inplace`), raising when a label is
not contained in the axis; column selection raises `KeyError` on a missing
label; `KFold` raises on fold counts below 2 or above the row count.
No other validation happens anywhere in the notebook: in particular nothing
checks that the target is binary, and no error type named
`ConfigurationError` or `DegenerateFoldError` exists. -/

/-- A pandas data frame: named columns and rows of numeric values. -/
structure Frame : Type where
  cols : List String
  rows : List (List ℚ)

/-- `dropvar_list = ['incalls', 'creditcd', 'marryyes', 'travel', 'pcown']`. -/
def dropvarList : List String :=
  ["incalls", "creditcd", "marryyes", "travel", "pcown"]

/-- The error raised by `DataFrame.drop` on a label missing from the axis. -/
def dropErrMsg : String := "ValueError: labels not contained in axis"

/-- The error raised by column selection on a missing label. -/
def keyErrMsg : String := "KeyError: column not found"

/-- The error raised by `KFold` when `n_folds < 2`. -/
def kfoldSplitErrMsg : String :=
  "ValueError: k-fold cross-validation requires at least one train/test split"

/-- The error raised by `KFold` when `n_folds` exceeds the sample count. -/
def kfoldSizeErrMsg : String :=
  "ValueError: Cannot have number of folds n_folds greater than the number of samples"

/-- `DataFrame.drop(names, 1)`: a new frame without the named columns;
raises when any name is not a column. The input frame is not modified. -/
def dropCols (f : Frame) (names : List String) : Except String Frame :=
  if ∀ c ∈ names, c ∈ f.cols then
    .ok { cols := f.cols.filter (fun c => decide (c ∉ names)),
          rows := f.rows.map (fun r =>
            ((f.cols.zip r).filter (fun p => decide (p.1 ∉ names))).map Prod.snd) }
  else .error dropErrMsg

/-- The value of a row under a column name: the first column with that name
(0 when absent — unreachable for well-formed access). -/
def lookupVal (cols : List String) (r : List ℚ) (name : String) : ℚ :=
  match (cols.zip r).find? (fun p => decide (p.1 = name)) with
  | some p => p.2
  | none => 0

/-- `frame[name]`: the column as a vector, row-aligned with the frame;
raises `KeyError` on a missing label. -/
def getCol (f : Frame) (name : String) : Except String (List ℚ) :=
  if name ∈ f.cols then .ok (f.rows.map (fun r => lookupVal f.cols r name))
  else .error keyErrMsg

/-- `KFold(n, n_folds = k)` construction with its argument checks. -/
def mkKFold (n k : ℕ) : Except String (List (List ℕ)) :=
  if k ≤ 1 then .error kfoldSplitErrMsg
  else if n < k then .error kfoldSizeErrMsg
  else .ok (kfolds n k)

/-- The data-prep cell: drop the five redundant columns, split off `X` and
`Y`, and build the fold object, in the notebook's order. -/
def prepCell (data : Frame) :
    Except String (Frame × Frame × List ℚ × List (List ℕ)) :=
  match dropCols data dropvarList with
  | .error e => .error e
  | .ok ds =>
    match dropCols ds ["churndep"] with
    | .error e => .error e
    | .ok x =>
      match getCol ds "churndep" with
      | .error e => .error e
      | .ok y =>
        match mkKFold ds.rows.length 4 with
        | .error e => .error e
        | .ok folds => .ok (ds, x, y, folds)

/-- Truth of a computation having succeeded. -/
def exceptOk {ε α : Type} : Except ε α → Bool
  | .ok _ => true
  | .error _ => false

/-- A dataset with all expected columns whose target column takes the three
values `0`, `1`, `2` — not binary. -/
def nonBinaryData : Frame :=
  { cols := ["incalls", "creditcd", "marryyes", "travel", "pcown",
             "revenue", "churndep"],
    rows := [[0, 0, 0, 0, 0, 1, 0],
             [0, 0, 0, 0, 0, 2, 1],
             [0, 0, 0, 0, 0, 3, 2],
             [0, 0, 0, 0, 0, 4, 2]] }

/-- A dataset with every expected column and two rows, used to witness the
feature/target separation. -/
def demoData : Frame :=
  { cols := ["incalls", "creditcd", "marryyes", "travel", "pcown",
             "revenue", "churndep"],
    rows := [[1, 2, 3, 4, 5, 6, 0], [7, 8, 9, 10, 11, 12, 1]] }

/-- The value of `demoData.drop(dropvar_list, 1)`. -/
def demoSubset : Frame :=
  { cols := ["revenue", "churndep"], rows := [[6, 0], [12, 1]] }

/-- The value of `demoSubset.drop('churndep', 1)`. -/
def demoX : Frame := { cols := ["revenue"], rows := [[6], [12]] }

/-! ### The whole notebook run

The three `GridSearchCV` fits all receive `cv = kfolds`, the single fold
object computed once from `data_subset.shape[0]`; the classifier fits are
abstract prediction functions. -/

/-- The values the notebook reports: the fold object passed to each of the
three searches and each search's outcome (best point and `best_score_`). -/
structure Report : Type where
  cv1 : List (List ℕ)
  cv2 : List (List ℕ)
  cv3 : List (List ℕ)
  res1 : Except String (LRParams × ℚ)
  res2 : Except String (LRParams × ℚ)
  res3 : Except String (PolyParams × ℚ)

/-- The notebook end to end (after the initial shuffle): prep the data,
then run the baseline, scaler, and polynomial grid searches, all with the
one fold object. -/
def runExperiment (data : Frame)
    (fit1 fit2 : LRParams → Frame → List ℕ → List ℕ → List ℚ)
    (fit3 : PolyParams → Frame → List ℕ → List ℕ → List ℚ) :
    Except String Report :=
  match prepCell data with
  | .error e => .error e
  | .ok (ds, x, yq, folds) =>
    .ok { cv1 := folds, cv2 := folds, cv3 := folds,
          res1 := gridSearchCV paramGridLR
            (fun p => cvScore folds ds.rows.length
              (yq.map (fun v => decide (v ≠ 0))) (fit1 p x)),
          res2 := gridSearchCV parametersScaler
            (fun p => cvScore folds ds.rows.length
              (yq.map (fun v => decide (v ≠ 0))) (fit2 p x)),
          res3 := gridSearchCV parametersPoly
            (fun p => cvScore folds ds.rows.length
              (yq.map (fun v => decide (v ≠ 0))) (fit3 p x)) }

/-- A prediction function scoring every validation row zero. -/
def zeroFit {P : Type} : P → Frame → List ℕ → List ℕ → List ℚ :=
  fun _ _ _ v => v.map (fun _ => 0)

/-- The report of the run on `nonBinaryData`: four singleton folds, every
fold single-class, so all three searches abort with the `ValueError`. -/
def reportW : Report :=
  { cv1 := [[0], [1], [2], [3]],
    cv2 := [[0], [1], [2], [3]],
    cv3 := [[0], [1], [2], [3]],
    res1 := .error rocAucErr,
    res2 := .error rocAucErr,
    res3 := .error rocAucErr }

/-! ### Lemmas and claim theorems -/

lemma sum_map_range_ite (q m k : ℕ) :
    ((List.range k).map (fun i => q + if i < m then 1 else 0)).sum
      = k * q + min m k := by
  induction k with
  | zero => simp
  | succ k ih =>
    rw [List.range_succ, List.map_append, List.sum_append]
    simp only [List.map_cons, List.map_nil, List.sum_cons, List.sum_nil, ih]
    rcases lt_or_le k m with h | h
    · have h1 : min m k = k := min_eq_right h.le
      have h2 : min m (k + 1) = k + 1 := min_eq_right h
      simp [h, h1, h2, Nat.succ_mul]
      ring
    · have h1 : min m k = m := min_eq_left h
      have h2 : min m (k + 1) = m := min_eq_left (h.trans (Nat.le_succ k))
      have h3 : ¬ k < m := not_lt.mpr h
      simp [h3, h1, h2, Nat.succ_mul]
      ring

lemma foldSizes_sum (n k : ℕ) (hk : 0 < k) : (foldSizes n k).sum = n := by
  unfold foldSizes
  rw [sum_map_range_ite]
  have hm : n % k < k := Nat.mod_lt _ hk
  rw [min_eq_left hm.le]
  have := Nat.div_add_mod n k
  omega

lemma foldSizes_length (n k : ℕ) : (foldSizes n k).length = k := by
  simp [foldSizes]

lemma splitSizes_length {α : Type} (l : List α) (ss : List ℕ) :
    (splitSizes l ss).length = ss.length := by
  induction ss generalizing l with
  | nil => simp [splitSizes]
  | cons s rest ih => simp [splitSizes, ih]

lemma splitSizes_join {α : Type} (ss : List ℕ) (l : List α) :
    (splitSizes l ss).flatten = l.take ss.sum := by
  induction ss generalizing l with
  | nil => simp [splitSizes]
  | cons s rest ih =>
    simp only [splitSizes, List.flatten_cons, ih, List.sum_cons]
    rw [List.take_add]

lemma kfolds_join (n k : ℕ) (hk : 0 < k) :
    (kfolds n k).flatten = List.range n := by
  unfold kfolds
  rw [splitSizes_join, foldSizes_sum n k hk]
  simp

lemma kfolds_length (n k : ℕ) : (kfolds n k).length = k := by
  unfold kfolds
  rw [splitSizes_length, foldSizes_length]

/-- C2, partition invariant of the k-fold split. -/
theorem kfolds_partition (n k : ℕ) (hk2 : 2 ≤ k) (hkn : k ≤ n) :
    (kfolds n k).length = k ∧
    (kfolds n k).flatten = List.range n ∧
    List.Pairwise List.Disjoint (kfolds n k) ∧
    ∀ g ∈ kfolds n k, ∀ j, j < n → (j ∈ g ↔ j ∉ trainFold n g) := by
  have hk : 0 < k := lt_of_lt_of_le (by norm_num) hk2
  have hjoin := kfolds_join n k hk
  have hnodup : (kfolds n k).flatten.Nodup := by
    rw [hjoin]; exact List.nodup_range n
  rw [List.nodup_flatten] at hnodup
  refine ⟨kfolds_length n k, hjoin, hnodup.2, ?_⟩
  intro g hg j hj
  simp only [trainFold, List.mem_filter, List.mem_range, decide_eq_true_eq]
  tauto

/-- Witness for C2 at `n = 10`, `k = 4`. -/
theorem kfolds_partition_witness :
    (kfolds 10 4).length = 4 ∧
    (kfolds 10 4).flatten = List.range 10 ∧
    List.Pairwise List.Disjoint (kfolds 10 4) ∧
    ∀ g ∈ kfolds 10 4, ∀ j, j < 10 → (j ∈ g ↔ j ∉ trainFold 10 g) :=
  kfolds_partition 10 4 (by norm_num) (by norm_num)

lemma pickBest_spec {P : Type} :
    ∀ (l : List (P × ℚ)) (acc b : Option (P × ℚ)),
      l.foldl pickStep acc = b →
      b = acc ∨ ∃ x ∈ l, b = some x := by
  intro l
  induction l with
  | nil => intro acc b h; exact Or.inl h.symm
  | cons x xs ih =>
    intro acc b h
    simp only [List.foldl_cons] at h
    rcases ih _ _ h with h' | ⟨y, hy, hb⟩
    · match acc with
      | none => exact Or.inr ⟨x, List.mem_cons_self x xs, h'⟩
      | some a =>
        by_cases hlt : a.2 < x.2
        · simp only [pickStep, hlt, if_true] at h'
          exact Or.inr ⟨x, List.mem_cons_self x xs, h'⟩
        · simp only [pickStep, hlt, if_false] at h'
          exact Or.inl h'
    · exact Or.inr ⟨y, List.mem_cons_of_mem x hy, hb⟩

lemma pickBest_ge {P : Type} :
    ∀ (l : List (P × ℚ)) (acc : Option (P × ℚ)) (b : P × ℚ),
      l.foldl pickStep acc = some b →
      (∀ x ∈ l, x.2 ≤ b.2) ∧ (∀ a, acc = some a → a.2 ≤ b.2) := by
  intro l
  induction l with
  | nil =>
    intro acc b h
    exact ⟨by simp, fun a ha => by simp [ha] at h; simp [h]⟩
  | cons x xs ih =>
    intro acc b h
    simp only [List.foldl_cons] at h
    have step := ih _ _ h
    have hx : x.2 ≤ b.2 := by
      match acc with
      | none => exact step.2 x rfl
      | some a =>
        by_cases hlt : a.2 < x.2
        · exact step.2 x (by simp [pickStep, hlt])
        · exact le_trans (not_lt.mp hlt) (step.2 a (by simp [pickStep, hlt]))
    refine ⟨fun y hy => ?_, fun a ha => ?_⟩
    · rcases List.mem_cons.mp hy with rfl | hy'
      · exact hx
      · exact step.1 y hy'
    · match acc, ha with
      | some a, rfl =>
        by_cases hlt : a.2 < x.2
        · exact le_trans hlt.le (step.2 x (by simp [pickStep, hlt]))
        · exact step.2 a (by simp [pickStep, hlt])

lemma pickBest_mem {P : Type} (l : List (P × ℚ)) (b : P × ℚ)
    (h : pickBest l = some b) : b ∈ l := by
  rcases pickBest_spec l none (some b) h with h' | ⟨x, hx, hb⟩
  · exact absurd h' (by simp)
  · cases hb; exact hx

lemma pickBest_max {P : Type} (l : List (P × ℚ)) (b : P × ℚ)
    (h : pickBest l = some b) : ∀ x ∈ l, x.2 ≤ b.2 :=
  (pickBest_ge l none b h).1

lemma evalGrid_mem_of_ok {P : Type} (e : P → Except String ℚ) :
    ∀ (ps : List P) (scored : List (P × ℚ)),
      evalGrid e ps = .ok scored →
      ∀ pr ∈ scored, pr.1 ∈ ps ∧ e pr.1 = .ok pr.2 := by
  intro ps
  induction ps with
  | nil =>
    intro scored h pr hpr
    simp only [evalGrid] at h
    cases h; simp at hpr
  | cons p ps ih =>
    intro scored h pr hpr
    simp only [evalGrid] at h
    cases he : e p with
    | error msg => rw [he] at h; exact absurd h (by simp)
    | ok s =>
      rw [he] at h
      cases hr : evalGrid e ps with
      | error msg => rw [hr] at h; exact absurd h (by simp)
      | ok rest =>
        rw [hr] at h
        simp only [Except.ok.injEq] at h
        subst h
        rcases List.mem_cons.mp hpr with rfl | hpr'
        · exact ⟨List.mem_cons_self _ _, he⟩
        · have := ih rest hr pr hpr'
          exact ⟨List.mem_cons_of_mem _ this.1, this.2⟩

lemma evalGrid_ok_of_mem {P : Type} (e : P → Except String ℚ) :
    ∀ (ps : List P) (scored : List (P × ℚ)),
      evalGrid e ps = .ok scored →
      ∀ p ∈ ps, ∃ s, e p = .ok s ∧ (p, s) ∈ scored := by
  intro ps
  induction ps with
  | nil => intro scored _ p hp; simp at hp
  | cons q ps ih =>
    intro scored h p hp
    simp only [evalGrid] at h
    cases he : e q with
    | error msg => rw [he] at h; exact absurd h (by simp)
    | ok s =>
      rw [he] at h
      cases hr : evalGrid e ps with
      | error msg => rw [hr] at h; exact absurd h (by simp)
      | ok rest =>
        rw [hr] at h
        simp only [Except.ok.injEq] at h
        subst h
        rcases List.mem_cons.mp hp with rfl | hp'
        · exact ⟨s, he, List.mem_cons_self _ _⟩
        · obtain ⟨s', hs', hmem⟩ := ih rest hr p hp'
          exact ⟨s', hs', List.mem_cons_of_mem _ hmem⟩

/-- The best score returned by a successful grid search dominates the score
of every grid point, and is attained by a member of the grid. -/
lemma gridSearchCV_best {P : Type} (grid : List P) (e : P → Except String ℚ)
    (p : P) (s : ℚ) (h : gridSearchCV grid e = .ok (p, s)) :
    p ∈ grid ∧ e p = .ok s ∧ ∀ q ∈ grid, ∀ sq, e q = .ok sq → sq ≤ s := by
  unfold gridSearchCV at h
  cases hg : evalGrid e grid with
  | error msg => rw [hg] at h; exact absurd h (by simp)
  | ok scored =>
    rw [hg] at h
    dsimp only at h
    cases hb : pickBest scored with
    | none => rw [hb] at h; exact absurd h (by simp)
    | some b =>
      rw [hb] at h
      simp only [Except.ok.injEq] at h
      subst h
      have hmem := evalGrid_mem_of_ok e grid scored hg _ (pickBest_mem scored _ hb)
      refine ⟨hmem.1, hmem.2, fun q hq sq hsq => ?_⟩
      obtain ⟨s', hs', hmem'⟩ := evalGrid_ok_of_mem e grid scored hg q hq
      have : sq = s' := by rw [hsq] at hs'; cases hs'; rfl
      subst this
      exact pickBest_max scored _ hb _ hmem'

/-- C1: for each of the three pipeline variants, the best score reported by
a successful grid search (`best_score_`) is greater than or equal to the
cross-validated score of every hyper-parameter combination in that
variant's grid — it is the exact maximum, not an approximation. -/
theorem best_score_is_max
    (e1 e2 : LRParams → Except String ℚ) (e3 : PolyParams → Except String ℚ)
    (p1 p2 : LRParams) (p3 : PolyParams) (s1 s2 s3 : ℚ)
    (h1 : gridSearchCV paramGridLR e1 = .ok (p1, s1))
    (h2 : gridSearchCV parametersScaler e2 = .ok (p2, s2))
    (h3 : gridSearchCV parametersPoly e3 = .ok (p3, s3)) :
    (∀ q ∈ paramGridLR, ∀ sq, e1 q = .ok sq → sq ≤ s1) ∧
    (∀ q ∈ parametersScaler, ∀ sq, e2 q = .ok sq → sq ≤ s2) ∧
    (∀ q ∈ parametersPoly, ∀ sq, e3 q = .ok sq → sq ≤ s3) :=
  ⟨(gridSearchCV_best _ _ _ _ h1).2.2,
   (gridSearchCV_best _ _ _ _ h2).2.2,
   (gridSearchCV_best _ _ _ _ h3).2.2⟩

/-- Witness for C1: with the cross-validated score of a grid point taken to
be its `C` value, all three searches report best score `100`, which
dominates the score `1/1000` of the first grid point. -/
theorem best_score_is_max_witness : (mkRat 1 1000 : ℚ) ≤ 100 := by
  have h := best_score_is_max
    (fun q => Except.ok q.C) (fun q => Except.ok q.C) (fun q => Except.ok q.C)
    ⟨100, Penalty.l1⟩ ⟨100, Penalty.l1⟩ ⟨1, true, 100, Penalty.l1⟩
    100 100 100 rfl rfl rfl
  exact h.1 ⟨mkRat 1 1000, Penalty.l1⟩ (by decide) (mkRat 1 1000) rfl

/-- C7: on a fixed dataset and fold partition, whenever each later grid is a
superset in capability of the baseline grid — every baseline grid point's
score is matched or beaten by some grid point of the later variant — the
best score of the scaled variant and of the polynomial variant are at least
the best score of the baseline variant. -/
theorem complexity_monotonic
    (e1 e2 : LRParams → Except String ℚ) (e3 : PolyParams → Except String ℚ)
    (p1 p2 : LRParams) (p3 : PolyParams) (s1 s2 s3 : ℚ)
    (h1 : gridSearchCV paramGridLR e1 = .ok (p1, s1))
    (h2 : gridSearchCV parametersScaler e2 = .ok (p2, s2))
    (h3 : gridSearchCV parametersPoly e3 = .ok (p3, s3))
    (cap2 : ∀ q ∈ paramGridLR, ∀ sq, e1 q = .ok sq →
      ∃ q' ∈ parametersScaler, ∃ sq', e2 q' = .ok sq' ∧ sq ≤ sq')
    (cap3 : ∀ q ∈ paramGridLR, ∀ sq, e1 q = .ok sq →
      ∃ q' ∈ parametersPoly, ∃ sq', e3 q' = .ok sq' ∧ sq ≤ sq') :
    s1 ≤ s2 ∧ s1 ≤ s3 := by
  have b1 := gridSearchCV_best _ _ _ _ h1
  have b2 := gridSearchCV_best _ _ _ _ h2
  have b3 := gridSearchCV_best _ _ _ _ h3
  constructor
  · obtain ⟨q', hq', sq', hsq', hle⟩ := cap2 p1 b1.1 s1 b1.2.1
    exact hle.trans (b2.2.2 q' hq' sq' hsq')
  · obtain ⟨q', hq', sq', hsq', hle⟩ := cap3 p1 b1.1 s1 b1.2.1
    exact hle.trans (b3.2.2 q' hq' sq' hsq')

/-- Witness for C7: baseline scores constantly `0`, the scaled and
polynomial variants constantly `1`; the capability hypotheses hold and the
best scores are ordered. -/
theorem complexity_monotonic_witness : (0 : ℚ) ≤ 1 ∧ (0 : ℚ) ≤ 1 := by
  refine complexity_monotonic
    (fun _ => Except.ok 0) (fun _ => Except.ok 1) (fun _ => Except.ok 1)
    ⟨mkRat 1 1000, Penalty.l1⟩ ⟨mkRat 1 1000, Penalty.l1⟩
    ⟨1, true, mkRat 1 1000, Penalty.l1⟩
    0 1 1 rfl rfl rfl ?_ ?_
  · intro q _ sq hsq
    cases hsq
    exact ⟨⟨mkRat 1 1000, Penalty.l1⟩, by decide, 1, rfl, by norm_num⟩
  · intro q _ sq hsq
    cases hsq
    exact ⟨⟨1, true, mkRat 1 1000, Penalty.l1⟩, by decide, 1, rfl, by norm_num⟩

lemma pairScore_nonneg (sp sn : ℚ) : 0 ≤ pairScore sp sn := by
  unfold pairScore
  split_ifs <;> norm_num

lemma pairScore_le_one (sp sn : ℚ) : pairScore sp sn ≤ 1 := by
  unfold pairScore
  split_ifs <;> norm_num

lemma rocAuc_ok_bounds (yt : List Bool) (ys : List ℚ) (a : ℚ)
    (h : rocAuc yt ys = .ok a) : 0 ≤ a ∧ a ≤ 1 := by
  unfold rocAuc at h
  set pos := posScores yt ys with hpos
  set neg := negScores yt ys with hneg
  by_cases hemp : (pos.isEmpty || neg.isEmpty) = true
  · rw [if_pos hemp] at h
    exact absurd h (by simp)
  · rw [if_neg hemp] at h
    simp only [Except.ok.injEq] at h
    subst h
    have hne : pos ≠ [] ∧ neg ≠ [] := by
      rw [Bool.or_eq_true, not_or] at hemp
      simp only [List.isEmpty_iff] at hemp
      exact hemp
    have hS0 : 0 ≤ (pos.map (fun sp => (neg.map (fun sn => pairScore sp sn)).sum)).sum := by
      apply List.sum_nonneg
      intro x hx
      obtain ⟨sp, _, rfl⟩ := List.mem_map.mp hx
      apply List.sum_nonneg
      intro z hz
      obtain ⟨sn, _, rfl⟩ := List.mem_map.mp hz
      exact pairScore_nonneg sp sn
    have hinner : ∀ sp, (neg.map (fun sn => pairScore sp sn)).sum ≤ (neg.length : ℚ) := by
      intro sp
      have := List.sum_le_card_nsmul (neg.map (fun sn => pairScore sp sn)) 1
        (by
          intro x hx
          obtain ⟨sn, _, rfl⟩ := List.mem_map.mp hx
          exact pairScore_le_one sp sn)
      simpa [nsmul_eq_mul] using this
    have hS1 : (pos.map (fun sp => (neg.map (fun sn => pairScore sp sn)).sum)).sum
        ≤ (pos.length : ℚ) * (neg.length : ℚ) := by
      have := List.sum_le_card_nsmul
        (pos.map (fun sp => (neg.map (fun sn => pairScore sp sn)).sum))
        ((neg.length : ℚ))
        (by
          intro x hx
          obtain ⟨sp, _, rfl⟩ := List.mem_map.mp hx
          exact hinner sp)
      simpa [nsmul_eq_mul] using this
    have hP : 0 < pos.length := List.length_pos.mpr hne.1
    have hN : 0 < neg.length := List.length_pos.mpr hne.2
    have hD : (0 : ℚ) < ((pos.length * neg.length : ℕ) : ℚ) := by
      push_cast
      positivity
    constructor
    · exact div_nonneg hS0 hD.le
    · rw [div_le_one hD]
      push_cast
      exact hS1

lemma rocAuc_error_msg (yt : List Bool) (ys : List ℚ) (msg : String)
    (h : rocAuc yt ys = .error msg) : msg = rocAucErr := by
  unfold rocAuc at h
  by_cases hemp :
      ((posScores yt ys).isEmpty || (negScores yt ys).isEmpty) = true
  · rw [if_pos hemp] at h
    simp only [Except.error.injEq] at h
    exact h.symm
  · rw [if_neg hemp] at h
    exact absurd h (by simp)

lemma rocAuc_singleClass (yt : List Bool) (ys : List ℚ) (h : singleClass yt) :
    rocAuc yt ys = .error rocAucErr := by
  rcases h with hall | hall
  · have hneg : negScores yt ys = [] := by
      unfold negScores
      rw [List.map_eq_nil_iff, List.filter_eq_nil_iff]
      rintro ⟨a, b⟩ hp
      have ha : a ∈ yt := (List.of_mem_zip hp).1
      simp [hall a ha]
    unfold rocAuc
    simp [hneg]
  · have hpos : posScores yt ys = [] := by
      unfold posScores
      rw [List.map_eq_nil_iff, List.filter_eq_nil_iff]
      rintro ⟨a, b⟩ hp
      have ha : a ∈ yt := (List.of_mem_zip hp).1
      simp [hall a ha]
    unfold rocAuc
    simp [hpos]

lemma rocAuc_ok_of_both (yt : List Bool) (ys : List ℚ)
    (hlen : ys.length = yt.length) (ht : true ∈ yt) (hf : false ∈ yt) :
    ∃ a, rocAuc yt ys = .ok a ∧ 0 ≤ a ∧ a ≤ 1 := by
  have hzlen : (yt.zip ys).length = yt.length := by
    simp [List.length_zip, hlen]
  have hkey : ∀ c : Bool, c ∈ yt → ∃ q ∈ yt.zip ys, q.1 = c := by
    intro c hc
    obtain ⟨i, hi, hget⟩ := List.mem_iff_getElem.mp hc
    have hzi : i < (yt.zip ys).length := by rw [hzlen]; exact hi
    have hi2 : i < ys.length := by rw [hlen]; exact hi
    refine ⟨(yt.zip ys)[i], List.getElem_mem hzi, ?_⟩
    have : (yt.zip ys)[i] = (yt[i], ys[i]) := List.getElem_zip
    rw [this, hget]
  have hpos : posScores yt ys ≠ [] := by
    unfold posScores
    rw [Ne, List.map_eq_nil_iff, List.filter_eq_nil_iff]
    intro hnil
    obtain ⟨q, hq, hq1⟩ := hkey true ht
    exact hnil q hq (by simp [hq1])
  have hneg : negScores yt ys ≠ [] := by
    unfold negScores
    rw [Ne, List.map_eq_nil_iff, List.filter_eq_nil_iff]
    intro hnil
    obtain ⟨q, hq, hq1⟩ := hkey false hf
    exact hnil q hq (by simp [hq1])
  have hok : ∃ a, rocAuc yt ys = .ok a := by
    unfold rocAuc
    rw [if_neg ?_]
    · exact ⟨_, rfl⟩
    · simp only [Bool.or_eq_true, List.isEmpty_iff]
      tauto
  obtain ⟨a, ha⟩ := hok
  exact ⟨a, ha, rocAuc_ok_bounds yt ys a ha⟩

lemma foldScores_error (n : ℕ) (y : List Bool)
    (predict : List ℕ → List ℕ → List ℚ) :
    ∀ folds : List (List ℕ),
      (∃ f ∈ folds, singleClass (valLabels y f)) →
      foldScores n y predict folds = .error rocAucErr := by
  intro folds
  induction folds with
  | nil => rintro ⟨f, hf, _⟩; simp at hf
  | cons g gs ih =>
    rintro ⟨f, hf, hsc⟩
    simp only [foldScores]
    cases hr : rocAuc (valLabels y g) (predict (trainFold n g) g) with
    | error msg => rw [rocAuc_error_msg _ _ _ hr]
    | ok a =>
      rcases List.mem_cons.mp hf with rfl | hf'
      · rw [rocAuc_singleClass _ _ hsc] at hr
        exact absurd hr (by simp)
      · rw [ih ⟨f, hf', hsc⟩]

lemma cvScore_error (folds : List (List ℕ)) (n : ℕ) (y : List Bool)
    (predict : List ℕ → List ℕ → List ℚ)
    (h : ∃ f ∈ folds, singleClass (valLabels y f)) :
    cvScore folds n y predict = .error rocAucErr := by
  unfold cvScore
  rw [foldScores_error n y predict folds h]

lemma evalGrid_error_of_all {P : Type} (e : P → Except String ℚ) (msg : String) :
    ∀ ps : List P, ps ≠ [] → (∀ p ∈ ps, e p = .error msg) →
      evalGrid e ps = .error msg := by
  intro ps hne hall
  cases ps with
  | nil => exact absurd rfl hne
  | cons p ps =>
    simp only [evalGrid]
    rw [hall p (List.mem_cons_self p ps)]

/-- A grid search whose scorer raises on every grid point aborts with that
exception. -/
lemma gridSearchCV_error_of_all {P : Type} (grid : List P)
    (e : P → Except String ℚ) (msg : String) (hne : grid ≠ [])
    (hall : ∀ p ∈ grid, e p = .error msg) :
    gridSearchCV grid e = .error msg := by
  unfold gridSearchCV
  rw [evalGrid_error_of_all e msg grid hne hall]

lemma foldScores_ok_of_all (n : ℕ) (y : List Bool)
    (predict : List ℕ → List ℕ → List ℚ) :
    ∀ folds : List (List ℕ),
      (∀ f ∈ folds,
        ∃ a, rocAuc (valLabels y f) (predict (trainFold n f) f) = .ok a ∧
          0 ≤ a ∧ a ≤ 1) →
      ∃ l, foldScores n y predict folds = .ok l ∧
        ∀ x ∈ l, 0 ≤ x.1 ∧ x.1 ≤ 1 := by
  intro folds
  induction folds with
  | nil => exact fun _ => ⟨[], rfl, by simp⟩
  | cons f fs ih =>
    intro hall
    obtain ⟨a, ha, hb⟩ := hall f (List.mem_cons_self f fs)
    obtain ⟨l, hl, hlb⟩ := ih (fun g hg => hall g (List.mem_cons_of_mem f hg))
    refine ⟨(a, f.length) :: l, ?_, ?_⟩
    · simp only [foldScores]
      rw [ha, hl]
    · intro x hx
      rcases List.mem_cons.mp hx with rfl | hx'
      · exact hb
      · exact hlb x hx'

lemma weightedMean_bounds (l : List (ℚ × ℕ))
    (h : ∀ x ∈ l, 0 ≤ x.1 ∧ x.1 ≤ 1) :
    0 ≤ (l.map (fun x => x.1 * (x.2 : ℚ))).sum / (((l.map Prod.snd).sum : ℕ) : ℚ) ∧
    (l.map (fun x => x.1 * (x.2 : ℚ))).sum / (((l.map Prod.snd).sum : ℕ) : ℚ) ≤ 1 := by
  have hS0 : 0 ≤ (l.map (fun x => x.1 * (x.2 : ℚ))).sum := by
    apply List.sum_nonneg
    intro z hz
    obtain ⟨x, hx, rfl⟩ := List.mem_map.mp hz
    exact mul_nonneg (h x hx).1 (by positivity)
  have hSW : (l.map (fun x => x.1 * (x.2 : ℚ))).sum
      ≤ (l.map (fun x => ((x.2 : ℕ) : ℚ))).sum := by
    apply List.sum_le_sum
    intro x hx
    calc x.1 * (x.2 : ℚ) ≤ 1 * (x.2 : ℚ) :=
          mul_le_mul_of_nonneg_right (h x hx).2 (by positivity)
      _ = (x.2 : ℚ) := one_mul _
  have hW : (((l.map Prod.snd).sum : ℕ) : ℚ)
      = (l.map (fun x => ((x.2 : ℕ) : ℚ))).sum := by
    rw [Nat.cast_list_sum, List.map_map]
    rfl
  rcases eq_or_lt_of_le
      (show (0 : ℚ) ≤ (((l.map Prod.snd).sum : ℕ) : ℚ) by positivity) with h0 | h0
  · rw [← h0, div_zero]
    norm_num
  · constructor
    · exact div_nonneg hS0 h0.le
    · rw [div_le_one h0, hW]
      exact hSW

lemma pickStep_foldl_some {P : Type} :
    ∀ (l : List (P × ℚ)) (a : P × ℚ), ∃ b, l.foldl pickStep (some a) = some b := by
  intro l
  induction l with
  | nil => exact fun a => ⟨a, rfl⟩
  | cons x xs ih =>
    intro a
    simp only [List.foldl_cons]
    have : ∃ c, pickStep (some a) x = some c := by
      unfold pickStep
      by_cases hlt : a.2 < x.2 <;> simp [hlt]
    obtain ⟨c, hc⟩ := this
    rw [hc]
    exact ih c

lemma pickBest_some {P : Type} (l : List (P × ℚ)) (hne : l ≠ []) :
    ∃ b, pickBest l = some b := by
  cases l with
  | nil => exact absurd rfl hne
  | cons x xs =>
    unfold pickBest
    simp only [List.foldl_cons]
    have hx : pickStep none x = some x := rfl
    rw [hx]
    exact pickStep_foldl_some xs x

lemma evalGrid_ok_of_all {P : Type} (e : P → Except String ℚ) (Q : ℚ → Prop) :
    ∀ ps : List P, (∀ p ∈ ps, ∃ s, e p = .ok s ∧ Q s) →
      ∃ scored, evalGrid e ps = .ok scored ∧
        ∀ x ∈ scored, x.1 ∈ ps ∧ Q x.2 := by
  intro ps
  induction ps with
  | nil => exact fun _ => ⟨[], rfl, by simp⟩
  | cons p ps ih =>
    intro hall
    obtain ⟨s, hs, hQ⟩ := hall p (List.mem_cons_self p ps)
    obtain ⟨scored, hsc, hprop⟩ := ih (fun q hq => hall q (List.mem_cons_of_mem p hq))
    refine ⟨(p, s) :: scored, ?_, ?_⟩
    · simp only [evalGrid]
      rw [hs, hsc]
    · intro x hx
      rcases List.mem_cons.mp hx with rfl | hx'
      · exact ⟨List.mem_cons_self _ _, hQ⟩
      · obtain ⟨hm, hq⟩ := hprop x hx'
        exact ⟨List.mem_cons_of_mem _ hm, hq⟩

/-- A grid search whose scorer succeeds with property `Q` on every grid
point succeeds and reports a grid member whose score satisfies `Q`. -/
lemma gridSearchCV_ok_of_all {P : Type} (grid : List P)
    (e : P → Except String ℚ) (Q : ℚ → Prop) (hne : grid ≠ [])
    (hall : ∀ p ∈ grid, ∃ s, e p = .ok s ∧ Q s) :
    ∃ p s, gridSearchCV grid e = .ok (p, s) ∧ p ∈ grid ∧ Q s := by
  obtain ⟨scored, hsc, hprop⟩ := evalGrid_ok_of_all e Q grid hall
  have hscne : scored ≠ [] := by
    obtain ⟨p0, hp0⟩ := List.exists_mem_of_ne_nil grid hne
    obtain ⟨s0, _, hmem⟩ := evalGrid_ok_of_mem e grid scored hsc p0 hp0
    exact List.ne_nil_of_mem hmem
  obtain ⟨b, hb⟩ := pickBest_some scored hscne
  have hbm := hprop b (pickBest_mem scored b hb)
  refine ⟨b.1, b.2, ?_, hbm.1, hbm.2⟩
  unfold gridSearchCV
  rw [hsc]
  dsimp only
  rw [hb]

/-- C3 counterexample: on an 8-row target whose first validation fold is
single-class, the baseline grid search does not skip the grid point and
continue — it aborts with the library `ValueError`; no
`DegenerateFoldError` exists anywhere in the code. -/
theorem degenerate_fold_cex :
    gridSearchCV paramGridLR
      (fun _ => cvScore (kfolds 8 4) 8 yDeg (fun _ v => v.map (fun _ => (0 : ℚ))))
      = .error rocAucErr := rfl

/-- C3 (amended): a fold whose validation partition contains only one class
makes the ROC-AUC score undefined; the scorer raises the library
`ValueError`, which `GridSearchCV` does not catch, so the affected grid
point is not excluded — the entire search aborts with that error. -/
theorem degenerate_fold_aborts {P : Type} (grid : List P) (hne : grid ≠ [])
    (folds : List (List ℕ)) (n : ℕ) (y : List Bool)
    (predict : P → List ℕ → List ℕ → List ℚ)
    (hf : ∃ f ∈ folds, singleClass (valLabels y f)) :
    gridSearchCV grid (fun p => cvScore folds n y (predict p)) = .error rocAucErr :=
  gridSearchCV_error_of_all grid _ rocAucErr hne
    (fun p _ => cvScore_error folds n y (predict p) hf)

/-- Witness for C3 (amended) at the concrete 8-row degenerate dataset. -/
theorem degenerate_fold_aborts_witness :
    gridSearchCV parametersScaler
      (fun _ => cvScore (kfolds 8 4) 8 yDeg (fun _ v => v.map (fun _ => (1 : ℚ))))
      = .error rocAucErr :=
  degenerate_fold_aborts parametersScaler (by decide) (kfolds 8 4) 8 yDeg
    (fun _ _ v => v.map (fun _ => (1 : ℚ)))
    ⟨[0, 1], by decide, Or.inl (by decide)⟩

/-- C6 counterexample: the notebook's polynomial grid also varies
`lr__penalty` over two values, so the cartesian product has
2 × 2 × 6 × 2 = 48 points, not the 24 the claim states. -/
theorem poly_grid_size_cex :
    parametersPoly.length = 48 ∧ parametersPoly.length ≠ 24 :=
  ⟨rfl, by decide⟩

/-- C6 (amended): on the 10-row balanced scenario with 4 folds, for every
prediction function producing one score per validation row, the polynomial
search evaluates exactly 48 grid points and reports exactly one winning
combination, whose cross-validated ROC-AUC score lies in `[0, 1]`. -/
theorem poly_grid_scenario
    (predict : PolyParams → List ℕ → List ℕ → List ℚ)
    (hlen : ∀ p tr v, (predict p tr v).length = v.length) :
    parametersPoly.length = 48 ∧
    ∃ p s, gridSearchCV parametersPoly
        (fun p => cvScore (kfolds 10 4) 10 scenarioY (predict p)) = .ok (p, s) ∧
      p ∈ parametersPoly ∧ 0 ≤ s ∧ s ≤ 1 := by
  refine ⟨rfl, ?_⟩
  have hfolds : ∀ f ∈ kfolds 10 4,
      true ∈ valLabels scenarioY f ∧ false ∈ valLabels scenarioY f ∧
      (valLabels scenarioY f).length = f.length := by decide
  apply gridSearchCV_ok_of_all parametersPoly _ (fun s => 0 ≤ s ∧ s ≤ 1)
    (by decide)
  intro p _
  have hall : ∀ f ∈ kfolds 10 4,
      ∃ a, rocAuc (valLabels scenarioY f) (predict p (trainFold 10 f) f) = .ok a ∧
        0 ≤ a ∧ a ≤ 1 := by
    intro f hf
    obtain ⟨ht, hfa, hlen2⟩ := hfolds f hf
    exact rocAuc_ok_of_both _ _ (by rw [hlen p _ f, ← hlen2]) ht hfa
  obtain ⟨l, hl, hlb⟩ :=
    foldScores_ok_of_all 10 scenarioY (predict p) (kfolds 10 4) hall
  refine ⟨_, ?_, weightedMean_bounds l hlb⟩
  unfold cvScore
  rw [hl]

/-- Witness for C6 (amended) with the constant-zero prediction function. -/
theorem poly_grid_scenario_witness :
    parametersPoly.length = 48 ∧
    ∃ p s, gridSearchCV parametersPoly
        (fun _ => cvScore (kfolds 10 4) 10 scenarioY
          (fun _ v => v.map (fun _ => (0 : ℚ)))) = .ok (p, s) ∧
      p ∈ parametersPoly ∧ 0 ≤ s ∧ s ≤ 1 :=
  poly_grid_scenario (fun _ _ v => v.map (fun _ => (0 : ℚ)))
    (fun _ _ v => by simp)

lemma cwr_zero {α : Type} (l : List α) : cwr l 0 = [[]] := by
  cases l <;> simp [cwr]

lemma cwr_one {α : Type} (l : List α) : cwr l 1 = l.map (fun a => [a]) := by
  induction l with
  | nil => simp [cwr]
  | cons x xs ih =>
    show cwr (x :: xs) (0 + 1) = (x :: xs).map (fun a => [a])
    rw [cwr]
    rw [cwr_zero]
    simp [ih]

/-- Degree-1, `interaction_only=False` expansion prepends the bias column
of ones and otherwise keeps every feature unchanged. -/
lemma polyTransform_degree_one (X : List (List ℚ)) :
    polyTransform 1 false X = X.map (fun r => 1 :: r) := by
  unfold polyTransform
  apply List.map_congr_left
  intro r _
  have h2 : List.range 2 = [0, 1] := rfl
  simp [monomials, h2, cwr_zero, cwr_one, List.map_map, Function.comp_def]

/-- C5 (amended): polynomial expansion with degree 1 and
interaction-only=False is not the identity — it prepends a constant bias
column of ones (`include_bias=True` default); dropping that first column
recovers the original feature matrix exactly. -/
theorem poly_degree_one_bias (X : List (List ℚ)) :
    polyTransform 1 false X = X.map (fun r => 1 :: r) ∧
    (polyTransform 1 false X).map List.tail = X := by
  refine ⟨polyTransform_degree_one X, ?_⟩
  rw [polyTransform_degree_one X, List.map_map]
  have htail : (List.tail ∘ fun r : List ℚ => 1 :: r) = id := by
    funext r
    rfl
  rw [htail, List.map_id]

/-- C5 counterexample: on the single-row feature matrix `[[2, 3]]` the
degree-1 transform returns `[[1, 2, 3]]`, which differs from the input —
the transform is not the identity on the feature set. -/
theorem poly_degree_one_cex :
    polyTransform 1 false [[2, 3]] = [[1, 2, 3]] ∧
    polyTransform 1 false [[2, 3]] ≠ ([[2, 3]] : List (List ℚ)) := by
  have h := polyTransform_degree_one [[2, 3]]
  constructor
  · rw [h]
    rfl
  · rw [h]
    decide

lemma dropCols_ok_shape (f : Frame) (names : List String) (g : Frame)
    (h : dropCols f names = .ok g) :
    g.cols = f.cols.filter (fun c => decide (c ∉ names)) ∧
    g.rows = f.rows.map (fun r =>
      ((f.cols.zip r).filter (fun p => decide (p.1 ∉ names))).map Prod.snd) := by
  unfold dropCols at h
  by_cases hc : ∀ c ∈ names, c ∈ f.cols
  · rw [if_pos hc] at h
    simp only [Except.ok.injEq] at h
    subst h
    exact ⟨rfl, rfl⟩
  · rw [if_neg hc] at h
    exact absurd h (by simp)

lemma dropCols_error_of (f : Frame) (names : List String)
    (h : ¬ ∀ c ∈ names, c ∈ f.cols) :
    dropCols f names = .error dropErrMsg := by
  unfold dropCols
  rw [if_neg h]

lemma dropCols_ok_of (f : Frame) (names : List String)
    (h : ∀ c ∈ names, c ∈ f.cols) :
    dropCols f names = .ok
      { cols := f.cols.filter (fun c => decide (c ∉ names)),
        rows := f.rows.map (fun r =>
          ((f.cols.zip r).filter (fun p => decide (p.1 ∉ names))).map Prod.snd) } := by
  unfold dropCols
  rw [if_pos h]

lemma mkKFold_ok (n k : ℕ) (folds : List (List ℕ))
    (h : mkKFold n k = .ok folds) : folds = kfolds n k ∧ 2 ≤ k ∧ k ≤ n := by
  unfold mkKFold at h
  by_cases h1 : k ≤ 1
  · rw [if_pos h1] at h
    exact absurd h (by simp)
  · rw [if_neg h1] at h
    by_cases h2 : n < k
    · rw [if_pos h2] at h
      exact absurd h (by simp)
    · rw [if_neg h2] at h
      simp only [Except.ok.injEq] at h
      exact ⟨h.symm, by omega, by omega⟩

lemma prepCell_ok (data : Frame) (ds x : Frame) (y : List ℚ)
    (folds : List (List ℕ))
    (h : prepCell data = .ok (ds, x, y, folds)) :
    dropCols data dropvarList = .ok ds ∧
    dropCols ds ["churndep"] = .ok x ∧
    getCol ds "churndep" = .ok y ∧
    mkKFold ds.rows.length 4 = .ok folds := by
  unfold prepCell at h
  cases h1 : dropCols data dropvarList with
  | error e => rw [h1] at h; exact absurd h (by simp)
  | ok ds' =>
    rw [h1] at h
    dsimp only at h
    cases h2 : dropCols ds' ["churndep"] with
    | error e => rw [h2] at h; exact absurd h (by simp)
    | ok x' =>
      rw [h2] at h
      dsimp only at h
      cases h3 : getCol ds' "churndep" with
      | error e => rw [h3] at h; exact absurd h (by simp)
      | ok y' =>
        rw [h3] at h
        dsimp only at h
        cases h4 : mkKFold ds'.rows.length 4 with
        | error e => rw [h4] at h; exact absurd h (by simp)
        | ok folds' =>
          rw [h4] at h
          dsimp only at h
          simp only [Except.ok.injEq, Prod.mk.injEq] at h
          obtain ⟨hds, hx, hy, hfolds⟩ := h
          subst hds; subst hx; subst hy; subst hfolds
          exact ⟨rfl, h2, h3, h4⟩

lemma dropCols_preserves_target (data : Frame) (ds : Frame)
    (h : dropCols data dropvarList = .ok ds)
    (ht : "churndep" ∈ data.cols) : "churndep" ∈ ds.cols := by
  obtain ⟨hcols, _⟩ := dropCols_ok_shape data dropvarList ds h
  rw [hcols, List.mem_filter]
  exact ⟨ht, by decide⟩

/-- C4 counterexample: on a dataset whose target column takes the three
values `{0, 1, 2}` — hence not binary — the data-prep cell succeeds without
raising anything: no input validation rejects a non-binary target, and no
error type named `ConfigurationError` exists in the code. -/
theorem no_validation_cex : exceptOk (prepCell nonBinaryData) = true := rfl

/-- C4 (amended): the notebook performs no input validation of its own.
A drop-list column missing from the dataset aborts with the pandas
`ValueError` of `drop`; a missing target column aborts with the same
`ValueError` raised by the second `drop`; a fold count exceeding the row
count aborts with the `KFold` `ValueError`; and when the columns exist and
at least four rows are present the cell succeeds with no check that the
target is binary. No `ConfigurationError` exists. -/
theorem no_explicit_validation (data : Frame) :
    (¬ (∀ c ∈ dropvarList, c ∈ data.cols) →
      prepCell data = .error dropErrMsg) ∧
    ((∀ c ∈ dropvarList, c ∈ data.cols) → "churndep" ∉ data.cols →
      prepCell data = .error dropErrMsg) ∧
    ((∀ c ∈ dropvarList, c ∈ data.cols) → "churndep" ∈ data.cols →
      data.rows.length < 4 → prepCell data = .error kfoldSizeErrMsg) ∧
    ((∀ c ∈ dropvarList, c ∈ data.cols) → "churndep" ∈ data.cols →
      4 ≤ data.rows.length → ∃ v, prepCell data = .ok v) := by
  refine ⟨?_, ?_, ?_, ?_⟩
  · intro h
    unfold prepCell
    rw [dropCols_error_of data dropvarList h]
  · intro hall hmiss
    unfold prepCell
    rw [dropCols_ok_of data dropvarList hall]
    dsimp only
    rw [dropCols_error_of _ ["churndep"] ?_]
    simp only [List.mem_cons, List.not_mem_nil, or_false, forall_eq,
      List.mem_filter, decide_eq_true_eq]
    exact fun hc => hmiss hc.1
  · intro hall ht hlt
    unfold prepCell
    rw [dropCols_ok_of data dropvarList hall]
    dsimp only
    have htds : "churndep" ∈ data.cols.filter (fun c => decide (c ∉ dropvarList)) := by
      rw [List.mem_filter]
      exact ⟨ht, by decide⟩
    rw [dropCols_ok_of _ ["churndep"] (by simpa using htds)]
    dsimp only
    unfold getCol
    rw [if_pos htds]
    dsimp only
    have hlen : (data.rows.map (fun r =>
        ((data.cols.zip r).filter (fun p => decide (p.1 ∉ dropvarList))).map
          Prod.snd)).length = data.rows.length := by
      rw [List.length_map]
    unfold mkKFold
    rw [if_neg (by norm_num)]
    rw [if_pos (by simpa [hlen] using hlt)]
  · intro hall ht hge
    unfold prepCell
    rw [dropCols_ok_of data dropvarList hall]
    dsimp only
    have htds : "churndep" ∈ data.cols.filter (fun c => decide (c ∉ dropvarList)) := by
      rw [List.mem_filter]
      exact ⟨ht, by decide⟩
    rw [dropCols_ok_of _ ["churndep"] (by simpa using htds)]
    dsimp only
    unfold getCol
    rw [if_pos htds]
    dsimp only
    have hlen : (data.rows.map (fun r =>
        ((data.cols.zip r).filter (fun p => decide (p.1 ∉ dropvarList))).map
          Prod.snd)).length = data.rows.length := by
      rw [List.length_map]
    unfold mkKFold
    rw [if_neg (by norm_num)]
    rw [if_neg (by simp [hlen]; omega)]
    exact ⟨_, rfl⟩

/-- Witness for C4 (amended): works on a frame missing the drop-list
columns (aborts with the pandas error) and on the complete non-binary
frame (succeeds). -/
theorem no_explicit_validation_witness :
    prepCell { cols := ["revenue"], rows := [] } = .error dropErrMsg ∧
    ∃ v, prepCell nonBinaryData = .ok v := by
  constructor
  · exact (no_explicit_validation { cols := ["revenue"], rows := [] }).1
      (by decide)
  · exact (no_explicit_validation nonBinaryData).2.2.2 (by decide) (by decide)
      (by decide)

lemma filter_zip_map_fst (q : String → Bool) :
    ∀ (cols : List String) (r : List ℚ), r.length = cols.length →
      ((cols.zip r).filter (fun p => q p.1)).map Prod.fst = cols.filter q := by
  intro cols
  induction cols with
  | nil => intro r _; simp
  | cons c cs ih =>
    intro r hlen
    cases r with
    | nil => simp at hlen
    | cons v vs =>
      simp only [List.zip_cons_cons, List.filter_cons]
      by_cases hq : q c
      · simp [hq, ih vs (by simpa using hlen)]
      · simp [hq, ih vs (by simpa using hlen)]

lemma zip_fst_snd {α β : Type} (w : List (α × β)) :
    (w.map Prod.fst).zip (w.map Prod.snd) = w := by
  induction w with
  | nil => rfl
  | cons x xs ih =>
    cases x
    simp [ih]

lemma find?_filter_of_imp {α : Type} (p q : α → Bool)
    (himp : ∀ a, p a = true → q a = true) :
    ∀ l : List α, (l.filter q).find? p = l.find? p := by
  intro l
  induction l with
  | nil => rfl
  | cons x xs ih =>
    by_cases hq : q x
    · rw [List.filter_cons_of_pos hq]
      by_cases hp : p x
      · rw [List.find?_cons_of_pos _ hp, List.find?_cons_of_pos _ hp]
      · rw [List.find?_cons_of_neg _ hp, List.find?_cons_of_neg _ hp, ih]
    · rw [List.filter_cons_of_neg hq]
      have hp : ¬ p x = true := fun hpx => hq (himp x hpx)
      rw [List.find?_cons_of_neg _ hp, ih]

/-- Looking a name up in a column-dropped row agrees with looking it up in
the original row, provided the name survives the drop. -/
lemma lookupVal_filter (cols : List String) (r : List ℚ) (name : String)
    (q : String → Bool) (hlen : r.length = cols.length) (hq : q name = true) :
    lookupVal (cols.filter q)
      (((cols.zip r).filter (fun p => q p.1)).map Prod.snd) name
      = lookupVal cols r name := by
  unfold lookupVal
  have hz : (cols.filter q).zip
        (((cols.zip r).filter (fun p => q p.1)).map Prod.snd)
      = (cols.zip r).filter (fun p => q p.1) := by
    rw [← filter_zip_map_fst q cols r hlen]
    exact zip_fst_snd _
  rw [hz]
  have himp : ∀ a : String × ℚ,
      decide (a.1 = name) = true → q a.1 = true := by
    intro a ha
    have : a.1 = name := of_decide_eq_true ha
    rw [this]
    exact hq
  rw [find?_filter_of_imp (fun p => decide (p.1 = name)) (fun p => q p.1)
    himp (cols.zip r)]

lemma getCol_ok_shape (f : Frame) (name : String) (y : List ℚ)
    (h : getCol f name = .ok y) :
    y = f.rows.map (fun r => lookupVal f.cols r name) := by
  unfold getCol at h
  by_cases hc : name ∈ f.cols
  · rw [if_pos hc] at h
    simp only [Except.ok.injEq] at h
    exact h.symm
  · rw [if_neg hc] at h
    exact absurd h (by simp)

/-- C10: the feature/target separation of the data-prep cell produces new
frames without touching the input: `data_subset` holds exactly the columns
of the dataset minus the drop-list, `X` additionally loses the target
column, row counts are preserved, and `Y` is row-aligned with the dataset —
its entries are exactly the `churndep` values of the original rows. -/
theorem feature_target_separation (data ds x : Frame) (y : List ℚ)
    (hwf : ∀ r ∈ data.rows, r.length = data.cols.length)
    (h1 : dropCols data dropvarList = .ok ds)
    (h2 : dropCols ds ["churndep"] = .ok x)
    (h3 : getCol ds "churndep" = .ok y) :
    ds.cols = data.cols.filter (fun c => decide (c ∉ dropvarList)) ∧
    x.cols = ds.cols.filter (fun c => decide (c ∉ ["churndep"])) ∧
    x.rows.length = data.rows.length ∧
    y.length = data.rows.length ∧
    y = data.rows.map (fun r => lookupVal data.cols r "churndep") := by
  obtain ⟨hdc, hdr⟩ := dropCols_ok_shape data dropvarList ds h1
  obtain ⟨hxc, hxr⟩ := dropCols_ok_shape ds ["churndep"] x h2
  have hy := getCol_ok_shape ds "churndep" y h3
  refine ⟨hdc, hxc, ?_, ?_, ?_⟩
  · rw [hxr, List.length_map, hdr, List.length_map]
  · rw [hy, List.length_map, hdr, List.length_map]
  · rw [hy, hdr, List.map_map]
    apply List.map_congr_left
    intro r hr
    show lookupVal ds.cols
      (((data.cols.zip r).filter (fun p => decide (p.1 ∉ dropvarList))).map
        Prod.snd) "churndep" = lookupVal data.cols r "churndep"
    rw [hdc]
    exact lookupVal_filter data.cols r "churndep"
      (fun c => decide (c ∉ dropvarList)) (hwf r hr) (by decide)

/-- Witness for C10 on the two-row demo dataset. -/
theorem feature_target_separation_witness :
    demoSubset.cols = demoData.cols.filter (fun c => decide (c ∉ dropvarList)) ∧
    demoX.cols = demoSubset.cols.filter (fun c => decide (c ∉ ["churndep"])) ∧
    demoX.rows.length = demoData.rows.length ∧
    ([0, 1] : List ℚ).length = demoData.rows.length ∧
    ([0, 1] : List ℚ)
      = demoData.rows.map (fun r => lookupVal demoData.cols r "churndep") :=
  feature_target_separation demoData demoSubset demoX [0, 1]
    (by decide) rfl rfl rfl

lemma runExperiment_ok (data : Frame)
    (fit1 fit2 : LRParams → Frame → List ℕ → List ℕ → List ℚ)
    (fit3 : PolyParams → Frame → List ℕ → List ℕ → List ℚ) (r : Report)
    (h : runExperiment data fit1 fit2 fit3 = .ok r) :
    ∃ ds x yq folds, prepCell data = .ok (ds, x, yq, folds) ∧
      r = { cv1 := folds, cv2 := folds, cv3 := folds,
            res1 := gridSearchCV paramGridLR
              (fun p => cvScore folds ds.rows.length
                (yq.map (fun v => decide (v ≠ 0))) (fit1 p x)),
            res2 := gridSearchCV parametersScaler
              (fun p => cvScore folds ds.rows.length
                (yq.map (fun v => decide (v ≠ 0))) (fit2 p x)),
            res3 := gridSearchCV parametersPoly
              (fun p => cvScore folds ds.rows.length
                (yq.map (fun v => decide (v ≠ 0))) (fit3 p x)) } := by
  unfold runExperiment at h
  cases hp : prepCell data with
  | error e => rw [hp] at h; exact absurd h (by simp)
  | ok quad =>
    obtain ⟨ds, x, yq, folds⟩ := quad
    rw [hp] at h
    dsimp only at h
    simp only [Except.ok.injEq] at h
    exact ⟨ds, x, yq, folds, rfl, h.symm⟩

lemma prepCell_folds (data ds x : Frame) (yq : List ℚ)
    (folds : List (List ℕ))
    (h : prepCell data = .ok (ds, x, yq, folds)) :
    folds = kfolds data.rows.length 4 := by
  obtain ⟨h1, _, _, h4⟩ := prepCell_ok data ds x yq folds h
  obtain ⟨f_eq, _, _⟩ := mkKFold_ok _ _ _ h4
  obtain ⟨_, hdr⟩ := dropCols_ok_shape data dropvarList ds h1
  rw [f_eq, hdr, List.length_map]

/-- C8: the run is deterministic after the initial shuffle — the fold
partition depends only on the row count and fold count (two datasets with
the same number of rows get the identical partition), and two runs on the
same input produce the identical report. -/
theorem run_deterministic
    (d1 d2 : Frame)
    (f1 f2 : LRParams → Frame → List ℕ → List ℕ → List ℚ)
    (f3 : PolyParams → Frame → List ℕ → List ℕ → List ℚ)
    (g1 g2 : LRParams → Frame → List ℕ → List ℕ → List ℚ)
    (g3 : PolyParams → Frame → List ℕ → List ℕ → List ℚ)
    (r1 r2 : Report)
    (hrows : d1.rows.length = d2.rows.length)
    (h1 : runExperiment d1 f1 f2 f3 = .ok r1)
    (h2 : runExperiment d2 g1 g2 g3 = .ok r2) :
    r1.cv1 = kfolds d1.rows.length 4 ∧
    r1.cv1 = r2.cv1 ∧
    (d1 = d2 → f1 = g1 → f2 = g2 → f3 = g3 → r1 = r2) := by
  obtain ⟨ds1, x1, y1, fo1, hp1, hr1⟩ := runExperiment_ok d1 f1 f2 f3 r1 h1
  obtain ⟨ds2, x2, y2, fo2, hp2, hr2⟩ := runExperiment_ok d2 g1 g2 g3 r2 h2
  have hf1 : fo1 = kfolds d1.rows.length 4 := prepCell_folds d1 ds1 x1 y1 fo1 hp1
  have hf2 : fo2 = kfolds d2.rows.length 4 := prepCell_folds d2 ds2 x2 y2 fo2 hp2
  refine ⟨?_, ?_, ?_⟩
  · rw [hr1]
    exact hf1
  · rw [hr1, hr2]
    show fo1 = fo2
    rw [hf1, hf2, hrows]
  · intro hd hga hgb hgc
    subst hd; subst hga; subst hgb; subst hgc
    rw [h1] at h2
    simp only [Except.ok.injEq] at h2
    exact h2

/-- Witness for C8 on the four-row dataset, run twice with the zero
prediction function. -/
theorem run_deterministic_witness :
    reportW.cv1 = kfolds nonBinaryData.rows.length 4 ∧
    reportW.cv1 = reportW.cv1 ∧
    (nonBinaryData = nonBinaryData →
      (zeroFit : LRParams → Frame → List ℕ → List ℕ → List ℚ) = zeroFit →
      (zeroFit : LRParams → Frame → List ℕ → List ℕ → List ℚ) = zeroFit →
      (zeroFit : PolyParams → Frame → List ℕ → List ℕ → List ℚ) = zeroFit →
      reportW = reportW) :=
  run_deterministic nonBinaryData nonBinaryData zeroFit zeroFit zeroFit
    zeroFit zeroFit zeroFit reportW reportW rfl rfl rfl

/-- C9: every run computes the fold object once — from the row count of the
dropped frame, equal to the dataset's row count — and passes that one
object as the `cv` argument of all three grid searches; each search's
result is scored over exactly those folds. -/
theorem shared_folds (data : Frame)
    (f1 f2 : LRParams → Frame → List ℕ → List ℕ → List ℚ)
    (f3 : PolyParams → Frame → List ℕ → List ℕ → List ℚ) (r : Report)
    (h : runExperiment data f1 f2 f3 = .ok r) :
    r.cv1 = r.cv2 ∧ r.cv2 = r.cv3 ∧
    r.cv1 = kfolds data.rows.length 4 ∧
    ∃ ds x yq, prepCell data = .ok (ds, x, yq, r.cv1) ∧
      r.res1 = gridSearchCV paramGridLR
        (fun p => cvScore r.cv1 ds.rows.length
          (yq.map (fun v => decide (v ≠ 0))) (f1 p x)) ∧
      r.res2 = gridSearchCV parametersScaler
        (fun p => cvScore r.cv1 ds.rows.length
          (yq.map (fun v => decide (v ≠ 0))) (f2 p x)) ∧
      r.res3 = gridSearchCV parametersPoly
        (fun p => cvScore r.cv1 ds.rows.length
          (yq.map (fun v => decide (v ≠ 0))) (f3 p x)) := by
  obtain ⟨ds, x, yq, folds, hp, hr⟩ := runExperiment_ok data f1 f2 f3 r h
  have hf : folds = kfolds data.rows.length 4 :=
    prepCell_folds data ds x yq folds hp
  subst hr
  exact ⟨rfl, rfl, hf, ds, x, yq, hp, rfl, rfl, rfl⟩

/-- Witness for C9 on the four-row dataset with the zero prediction
function. -/
theorem shared_folds_witness :
    reportW.cv1 = reportW.cv2 ∧ reportW.cv2 = reportW.cv3 ∧
    reportW.cv1 = kfolds nonBinaryData.rows.length 4 ∧
    ∃ ds x yq, prepCell nonBinaryData = .ok (ds, x, yq, reportW.cv1) ∧
      reportW.res1 = gridSearchCV paramGridLR
        (fun p => cvScore reportW.cv1 ds.rows.length
          (yq.map (fun v => decide (v ≠ 0))) (zeroFit p x)) ∧
      reportW.res2 = gridSearchCV parametersScaler
        (fun p => cvScore reportW.cv1 ds.rows.length
          (yq.map (fun v => decide (v ≠ 0))) (zeroFit p x)) ∧
      reportW.res3 = gridSearchCV parametersPoly
        (fun p => cvScore reportW.cv1 ds.rows.length
          (yq.map (fun v => decide (v ≠ 0))) (zeroFit p x)) :=
  shared_folds nonBinaryData zeroFit zeroFit zeroFit reportW rfl

end SklearnLab
